import Mathlib

/-!
Verification of the Access Control and Security-Audit core of the
unix-team collaboration platform, as a shallow embedding in Lean 4.

The definitions below are translated from the JavaScript sources:
  - src/services/github.service.js (RBACService: permission resolution,
    role assignment, team-scoped permissions),
  - src/services/audit.service.js (AuditService: audit log, anomaly
    detection, security incidents),
  - src/routes/team.routes.js (team membership routes and the admin
    incident-resolution route),
  - src/middleware/auth.js (requirePermission, requireAllPermissions),
  - the error classes and status-code mapping of the error-handler
    middleware.

Database tables (Prisma models role, userRole, teamMember, auditLog,
securityIncident) are modelled as Lean lists of structures; Prisma query
operators (findMany/findFirst/findUnique/count/create/update/deleteMany)
become the corresponding list operations.  Instants are integers
(milliseconds since the epoch), matching the arithmetic the code does on
Date.now().
-/

namespace UnixTeam

/-- Instants in milliseconds since the epoch, as produced by Date.now(). -/
abbrev Time := Int

abbrev UserId := String
abbrev TeamId := String
abbrev Permission := String

/-- Error values as classified by the error-handler middleware: `jsError`
is a plain `new Error(message)`; the remaining constructors are the
AppError subclasses defined in the error-handler module; `prismaError`
carries a Prisma error code such as P2025 (record not found on update). -/
inductive JsError where
  | jsError (msg : String)
  | validationError (msg : String)
  | authenticationError (msg : String)
  | authorizationError (msg : String)
  | notFoundError (resource : String)
  | conflictError (msg : String)
  | prismaError (code : String)
deriving DecidableEq, Repr

/-- HTTP status code the error-handler middleware responds with for each
error value: AppError subclasses carry their own statusCode; a plain
Error has none and falls back to 500; Prisma P2002 maps to 409. -/
def JsError.statusCode : JsError → Nat
  | .jsError _ => 500
  | .validationError _ => 400
  | .authenticationError _ => 401
  | .authorizationError _ => 403
  | .notFoundError _ => 404
  | .conflictError _ => 409
  | .prismaError c => if c == "P2002" then 409 else 500

/-! ## RBAC data model (Prisma models Role and UserRole) -/

/-- A row of the roles table. -/
structure Role where
  id : Nat
  name : String
  description : String
  permissions : List Permission
  isSystem : Bool
deriving DecidableEq, Repr

/-- A row of the user-role assignment table (the role-assignment ledger):
one actor holding one role, with grantor and an optional expiry. -/
structure UserRole where
  userId : UserId
  roleId : Nat
  grantedBy : UserId
  expiresAt : Option Time
deriving DecidableEq, Repr

/-- The RBAC portion of the database. -/
structure RBACDb where
  roles : List Role
  userRoles : List UserRole
deriving DecidableEq, Repr

/-- The expiry filter appearing in every resolution query of the RBAC
service: OR of expiresAt null and expiresAt strictly greater than now. -/
def notExpired (now : Time) (ur : UserRole) : Bool :=
  match ur.expiresAt with
  | none => true
  | some t => decide (now < t)

/-- An assignment whose expiry instant lies strictly in the past. -/
def pastExpired (now : Time) (ur : UserRole) : Bool :=
  match ur.expiresAt with
  | none => false
  | some t => decide (t < now)

/-- Relation lookup performed by the include clauses: resolve an
assignment to its role row by id. -/
def findRoleById (db : RBACDb) (roleId : Nat) : Option Role :=
  db.roles.find? (fun r => r.id == roleId)

/-- Permissions of the role an assignment references (empty when the
foreign key dangles, which referential integrity rules out). -/
def rolePermsOf (db : RBACDb) (ur : UserRole) : List Permission :=
  match findRoleById db ur.roleId with
  | some r => r.permissions
  | none => []

namespace RBACService

/-- RBACService.hasPermission: load the non-expired assignments of the
actor, return true when any of their roles includes the permission. -/
def hasPermission (db : RBACDb) (userId : UserId) (permission : Permission)
    (now : Time) : Bool :=
  (db.userRoles.filter (fun ur => ur.userId == userId && notExpired now ur)).any
    (fun ur => (rolePermsOf db ur).contains permission)

/-- RBACService.hasAnyPermission: disjunction of hasPermission over a list. -/
def hasAnyPermission (db : RBACDb) (userId : UserId)
    (permissions : List Permission) (now : Time) : Bool :=
  permissions.any (fun p => hasPermission db userId p now)

/-- RBACService.hasAllPermissions: conjunction of hasPermission over a list. -/
def hasAllPermissions (db : RBACDb) (userId : UserId)
    (permissions : List Permission) (now : Time) : Bool :=
  permissions.all (fun p => hasPermission db userId p now)

/-- RBACService.hasRole: findFirst over assignments of the actor whose
role has the given name, with the same expiry filter. -/
def hasRole (db : RBACDb) (userId : UserId) (roleName : String)
    (now : Time) : Bool :=
  (db.userRoles.find? (fun ur =>
    ur.userId == userId &&
    (match findRoleById db ur.roleId with
     | some r => r.name == roleName
     | none => false) &&
    notExpired now ur)).isSome

/-- Set-insertion step of the JS Set used by getUserPermissions: append
the element only when absent, preserving first-insertion order. -/
def addUnique (acc : List Permission) (p : Permission) : List Permission :=
  if acc.contains p then acc else acc ++ [p]

/-- RBACService.getUserPermissions (effectivePermissions): union of the
permission sets of the actor's non-expired roles, in insertion order. -/
def getUserPermissions (db : RBACDb) (userId : UserId) (now : Time) :
    List Permission :=
  (db.userRoles.filter (fun ur => ur.userId == userId && notExpired now ur)).foldl
    (fun acc ur => (rolePermsOf db ur).foldl addUnique acc) []

/-- RBACService.assignRole: look up the role by name (plain Error when
absent), reject when any assignment row for (userId, roleId) exists
(plain Error, no expiry filter on the duplicate check), else insert. -/
def assignRole (db : RBACDb) (userId : UserId) (roleName : String)
    (grantedBy : UserId) (expiresAt : Option Time) : Except JsError RBACDb :=
  match db.roles.find? (fun r => r.name == roleName) with
  | none => .error (.jsError ("Role \x27" ++ roleName ++ "\x27 not found"))
  | some role =>
    match db.userRoles.find? (fun ur => ur.userId == userId && ur.roleId == role.id) with
    | some _ => .error (.jsError ("User already has role \x27" ++ roleName ++ "\x27"))
    | none => .ok { db with userRoles := db.userRoles ++
        [{ userId := userId, roleId := role.id, grantedBy := grantedBy,
           expiresAt := expiresAt }] }

/-- RBACService.revokeRole: look up the role by name (plain Error when
absent), then deleteMany of all (userId, roleId) assignment rows. -/
def revokeRole (db : RBACDb) (userId : UserId) (roleName : String) :
    Except JsError RBACDb :=
  match db.roles.find? (fun r => r.name == roleName) with
  | none => .error (.jsError ("Role \x27" ++ roleName ++ "\x27 not found"))
  | some role =>
    .ok { db with userRoles :=
        db.userRoles.filter (fun ur => !(ur.userId == userId && ur.roleId == role.id)) }

end RBACService

/-! ## Team memberships (Prisma model TeamMember) -/

/-- The fixed team-role ladder, ordered VIEWER < MEMBER < LEAD < OWNER. -/
inductive TeamRole where
  | VIEWER
  | MEMBER
  | LEAD
  | OWNER
deriving DecidableEq, Repr

/-- A row of the team-membership table; (teamId, userId) is unique, and a
removed member keeps the row with leftAt set to the removal instant. -/
structure TeamMember where
  teamId : TeamId
  userId : UserId
  role : TeamRole
  joinedAt : Time
  leftAt : Option Time
deriving DecidableEq, Repr

/-- The findUnique lookup on the composite key teamId_userId used by
hasTeamPermission and the membership routes (no leftAt filter). -/
def findMembership (tms : List TeamMember) (teamId : TeamId)
    (userId : UserId) : Option TeamMember :=
  tms.find? (fun m => m.teamId == teamId && m.userId == userId)

namespace RBACService

/-- The fixed table of team-scoped implied permissions inside
hasTeamPermission. -/
def teamPermissions : TeamRole → List Permission
  | .OWNER => ["teams:write", "teams:manage_members", "projects:manage",
               "documents:write"]
  | .LEAD => ["teams:manage_members", "projects:write", "documents:write"]
  | .MEMBER => ["projects:read", "documents:read", "documents:write"]
  | .VIEWER => ["projects:read", "documents:read"]

/-- RBACService.hasTeamPermission: global check first; when it is false,
look up the (teamId, userId) membership row and test the permission
against the implied-permission table of its team role. -/
def hasTeamPermission (db : RBACDb) (tms : List TeamMember) (userId : UserId)
    (teamId : TeamId) (permission : Permission) (now : Time) : Bool :=
  if hasPermission db userId permission now then
    true
  else
    match findMembership tms teamId userId with
    | none => false
    | some membership => (teamPermissions membership.role).contains permission

end RBACService

/-! ## Team membership routes (team.routes.js) -/

/-- Outcome of a route handler: a successful response carrying the new
table state, a direct client-error response (res.status(...).json), or a
thrown error handed to the error-handler middleware. -/
inductive RouteOutcome (α : Type) where
  | ok (v : α)
  | clientError (status : Nat) (msg : String)
  | thrown (e : JsError)
deriving DecidableEq, Repr

/-- The owner count taken by the member-removal route:
prisma.teamMember.count({ where: { teamId, role: OWNER } }) — note there
is no leftAt filter, so owners who already left the team are counted. -/
def ownerCount (tms : List TeamMember) (teamId : TeamId) : Nat :=
  (tms.filter (fun m => m.teamId == teamId && m.role == TeamRole.OWNER)).length

namespace TeamRoutes

/-- PUT /teams/:teamId/members/:userId — update a member role.  The
handler updates the membership row directly, with no owner-count guard;
Prisma update throws P2025 when the row does not exist. -/
def updateMemberRole (tms : List TeamMember) (teamId : TeamId)
    (userId : UserId) (role : TeamRole) : RouteOutcome (List TeamMember) :=
  match findMembership tms teamId userId with
  | none => .thrown (.prismaError "P2025")
  | some _ =>
    .ok (tms.map (fun m =>
      if m.teamId == teamId && m.userId == userId then
        { m with role := role }
      else m))

/-- DELETE /teams/:teamId/members/:userId — soft-remove a member.  The
handler counts OWNER-role rows of the team, rejects with a 400 response
when the target row has role OWNER and that count is at most one, and
otherwise sets leftAt on the membership row (P2025 when absent). -/
def removeMember (tms : List TeamMember) (teamId : TeamId) (userId : UserId)
    (now : Time) : RouteOutcome (List TeamMember) :=
  let owners := ownerCount tms teamId
  let member := findMembership tms teamId userId
  if (match member with
      | some m => m.role == TeamRole.OWNER
      | none => false) && owners ≤ 1 then
    .clientError 400 "Cannot remove the last owner. Transfer ownership first."
  else
    match member with
    | none => .thrown (.prismaError "P2025")
    | some _ =>
      .ok (tms.map (fun m =>
        if m.teamId == teamId && m.userId == userId then
          { m with leftAt := some now }
        else m))

end TeamRoutes

/-! ## Authorization middleware (middleware/auth.js) -/

/-- The request-user context the authenticate middleware attaches from
the decoded JWT: the token embeds the role names and the permission list
computed at token-issuance time. -/
structure AuthedUser where
  userId : UserId
  roles : List String
  permissions : List Permission
deriving DecidableEq, Repr

/-- Decision of an authorization middleware: pass the request on, or fail
with an AuthenticationError / AuthorizationError. -/
inductive MWDecision where
  | allowed
  | unauthenticated
  | forbidden (msg : String)
deriving DecidableEq, Repr

namespace AuthMiddleware

/-- requirePermission(...permissions): allow when the JWT permission list
contains any required permission; otherwise re-check against the role
store and allow exactly when that check passes. -/
def requirePermission (permissions : List Permission) (db : RBACDb)
    (now : Time) (user : Option AuthedUser) : MWDecision :=
  match user with
  | none => .unauthenticated
  | some u =>
    if permissions.any (fun perm => u.permissions.contains perm) then
      .allowed
    else if RBACService.hasAnyPermission db u.userId permissions now then
      .allowed
    else
      .forbidden "Missing required permission"

/-- requireAllPermissions(...permissions): allow when the JWT permission
list contains every required permission; otherwise re-check hasAll
against the role store. -/
def requireAllPermissions (permissions : List Permission) (db : RBACDb)
    (now : Time) (user : Option AuthedUser) : MWDecision :=
  match user with
  | none => .unauthenticated
  | some u =>
    if permissions.all (fun perm => u.permissions.contains perm) then
      .allowed
    else if RBACService.hasAllPermissions db u.userId permissions now then
      .allowed
    else
      .forbidden "Insufficient permissions"

end AuthMiddleware

/-! ## Audit log and security incidents (audit.service.js) -/

/-- A row of the audit-log table, as created by AuditService.log. -/
structure AuditEntry where
  id : Nat
  userId : Option UserId
  action : String
  resource : String
  resourceId : Option String
  details : Option String
  ipAddress : Option String
  userAgent : Option String
  status : String
  errorMessage : Option String
  duration : Option Int
  createdAt : Time
deriving DecidableEq, Repr

/-- Modelled from the spec: the Prisma schema is not under src/; per the
spec the incident status is the closed enumeration OPEN, INVESTIGATING,
RESOLVED, FALSE_POSITIVE (state machine of section 4.5). -/
inductive IncidentStatus where
  | OPEN
  | INVESTIGATING
  | RESOLVED
  | FALSE_POSITIVE
deriving DecidableEq, Repr

/-- A row of the security-incident table. -/
structure SecurityIncident where
  id : Nat
  type : String
  severity : String
  title : String
  description : String
  status : IncidentStatus
  detectedAt : Time
  affectedUsers : List UserId
  resolution : Option String
  resolvedBy : Option UserId
  resolvedAt : Option Time
deriving DecidableEq, Repr

/-- The candidate record passed to _createSecurityIncident by the
anomaly-detection rules: type, severity, title, description and the
affected-user list. -/
structure IncidentCandidate where
  type : String
  severity : String
  title : String
  description : String
  affectedUsers : List UserId
deriving DecidableEq, Repr

/-- The audit-side database state: the audit-log table, the
security-incident table, and the id sequences of both. -/
structure AuditState where
  auditLog : List AuditEntry
  incidents : List SecurityIncident
  nextEntryId : Nat
  nextIncidentId : Nat
deriving DecidableEq, Repr

/-- The options object handed to AuditService.log by route handlers. -/
structure LogOptions where
  userId : Option UserId
  action : String
  resource : String
  resourceId : Option String
  details : Option String
  ipAddress : Option String
  userAgent : Option String
  status : String
  errorMessage : Option String
  duration : Option Int
deriving DecidableEq, Repr

/-- One hour in milliseconds: the incident correlation window. -/
def correlationWindowMs : Int := 60 * 60 * 1000

/-- Fifteen minutes in milliseconds: the failed-login lookback. -/
def fifteenMinutesMs : Int := 15 * 60 * 1000

/-- Thirty minutes in milliseconds: the multi-origin lookback. -/
def thirtyMinutesMs : Int := 30 * 60 * 1000

/-- The findFirst filter of _createSecurityIncident: same type, at least
one shared affected user (hasSome), status OPEN or INVESTIGATING, and
detectedAt within the trailing one-hour correlation window. -/
def matchesExisting (c : IncidentCandidate) (now : Time)
    (i : SecurityIncident) : Bool :=
  i.type == c.type &&
  i.affectedUsers.any (fun u => c.affectedUsers.contains u) &&
  (i.status == IncidentStatus.OPEN || i.status == IncidentStatus.INVESTIGATING) &&
  decide (now - correlationWindowMs ≤ i.detectedAt)

namespace AuditService

/-- AuditService._createSecurityIncident (create-or-merge): when a
matching incident exists, append the candidate description to its
description newline-joined; otherwise insert a new incident row.
Modelled from the spec where the Prisma schema (not under src/) supplies
the column defaults of the insert: status OPEN and detectedAt now. -/
def createSecurityIncident (st : AuditState) (c : IncidentCandidate)
    (now : Time) : AuditState :=
  match st.incidents.find? (matchesExisting c now) with
  | some existing =>
    { st with incidents :=
        st.incidents.map (fun i =>
          if i.id == existing.id then
            { i with description := i.description ++ "\n" ++ c.description }
          else i) }
  | none =>
    { st with
        incidents := st.incidents ++
          [{ id := st.nextIncidentId, type := c.type, severity := c.severity,
             title := c.title, description := c.description,
             status := IncidentStatus.OPEN, detectedAt := now,
             affectedUsers := c.affectedUsers, resolution := none,
             resolvedBy := none, resolvedAt := none }],
        nextIncidentId := st.nextIncidentId + 1 }

/-- The failed-login count of the brute-force rule: the actor's
LOGIN_FAILED entries in the trailing fifteen minutes. -/
def recentFailedLogins (st : AuditState) (u : UserId) (now : Time) : Nat :=
  (st.auditLog.filter (fun e =>
    e.userId == some u && e.action == "LOGIN_FAILED" &&
    decide (now - fifteenMinutesMs ≤ e.createdAt))).length

/-- The sensitive-access count of the second rule: the actor's
SENSITIVE_DATA_ACCESSED entries in the trailing hour. -/
def recentSensitiveAccess (st : AuditState) (u : UserId) (now : Time) : Nat :=
  (st.auditLog.filter (fun e =>
    e.userId == some u && e.action == "SENSITIVE_DATA_ACCESSED" &&
    decide (now - correlationWindowMs ≤ e.createdAt))).length

/-- The distinct origin addresses of the third rule: findMany with
distinct ipAddress over the actor's entries of the trailing thirty
minutes, counted. -/
def recentDistinctIPs (st : AuditState) (u : UserId) (now : Time) : Nat :=
  ((st.auditLog.filter (fun e =>
    e.userId == some u &&
    decide (now - thirtyMinutesMs ≤ e.createdAt))).map
      (fun e => e.ipAddress)).eraseDups.length

/-- Description text of a brute-force incident; template-literal
interpolation of a missing ipAddress prints the word undefined. -/
def bruteForceDescription (u : UserId) (n : Nat) (ip : Option String) :
    String :=
  "User " ++ u ++ " has " ++ toString n ++
    " failed login attempts in the last 15 minutes from IP " ++
    (ip.getD "undefined")

/-- Description text of an excessive sensitive-access incident. -/
def sensitiveAccessDescription (u : UserId) (n : Nat) : String :=
  "User " ++ u ++ " has accessed sensitive data " ++ toString n ++
    " times in the last hour"

/-- Description text of a multi-origin incident. -/
def multiIPDescription (u : UserId) (n : Nat) : String :=
  "User " ++ u ++ " has been active from " ++ toString n ++
    " different IP addresses in the last 30 minutes"

/-- The brute-force candidate raised at failure count n. -/
def bruteForceCandidate (u : UserId) (n : Nat) (ip : Option String) :
    IncidentCandidate :=
  { type := "BRUTE_FORCE", severity := "HIGH",
    title := "Multiple failed login attempts detected",
    description := bruteForceDescription u n ip, affectedUsers := [u] }

/-- AuditService._detectSuspiciousActivity: the three anomaly rules, run
in order against the persisted log (which already holds the triggering
entry).  JS truthiness of userId is modelled as presence of the actor. -/
def detectSuspiciousActivity (st : AuditState) (e : LogOptions)
    (now : Time) : AuditState :=
  let st1 :=
    match e.userId with
    | some u =>
      if e.action == "LOGIN_FAILED" then
        let n := recentFailedLogins st u now
        if 5 ≤ n then
          createSecurityIncident st (bruteForceCandidate u n e.ipAddress) now
        else st
      else st
    | none => st
  let st2 :=
    match e.userId with
    | some u =>
      if e.action == "SENSITIVE_DATA_ACCESSED" then
        let n := recentSensitiveAccess st1 u now
        if 50 ≤ n then
          createSecurityIncident st1
            { type := "SUSPICIOUS_ACTIVITY", severity := "MEDIUM",
              title := "Unusual data access pattern detected",
              description := sensitiveAccessDescription u n,
              affectedUsers := [u] } now
        else st1
      else st1
    | none => st1
  match e.userId with
  | some u =>
    let n := recentDistinctIPs st2 u now
    if 5 ≤ n then
      createSecurityIncident st2
        { type := "SUSPICIOUS_ACTIVITY", severity := "MEDIUM",
          title := "Multiple IP addresses detected",
          description := multiIPDescription u n,
          affectedUsers := [u] } now
    else st2
  | none => st2

/-- The prisma.auditLog.create step of AuditService.log: append a new
entry (createdAt defaulting to now) and return it. -/
def persistEntry (st : AuditState) (o : LogOptions) (now : Time) :
    AuditState × AuditEntry :=
  let entry : AuditEntry :=
    { id := st.nextEntryId, userId := o.userId, action := o.action,
      resource := o.resource, resourceId := o.resourceId,
      details := o.details, ipAddress := o.ipAddress,
      userAgent := o.userAgent, status := o.status,
      errorMessage := o.errorMessage, duration := o.duration,
      createdAt := now }
  ({ st with auditLog := st.auditLog ++ [entry],
             nextEntryId := st.nextEntryId + 1 }, entry)

/-- The success path of AuditService.log: persist the entry, then run
anomaly detection on the same options. -/
def log (st : AuditState) (o : LogOptions) (now : Time) :
    AuditState × AuditEntry :=
  let (st1, entry) := persistEntry st o now
  (detectSuspiciousActivity st1 o now, entry)

/-- The control flow of AuditService.log with its failure modes made
explicit: the body awaits the persistence step and then the
anomaly-detection step inside one try block, and the catch handler logs
locally and returns undefined instead of re-throwing. -/
def tryLog (persist : Except String AuditEntry)
    (detect : AuditEntry → Except String Unit) :
    Except String (Option AuditEntry) :=
  match (do
    let entry ← persist
    detect entry
    pure entry : Except String AuditEntry) with
  | .ok entry => .ok (some entry)
  | .error _ => .ok none

/-- AuditService.resolveIncident: prisma update of the incident row
(P2025 when absent) setting status RESOLVED and stamping resolution,
resolver and resolvedAt, unconditionally on the current status; the
resolution is then itself recorded through AuditService.log. -/
def resolveIncident (st : AuditState) (incidentId : Nat)
    (resolutionText : String) (resolvedBy : UserId) (now : Time) :
    Except JsError (AuditState × SecurityIncident) :=
  match st.incidents.find? (fun i => i.id == incidentId) with
  | none => .error (.prismaError "P2025")
  | some found =>
    let updated :=
      { found with status := IncidentStatus.RESOLVED,
                   resolution := some resolutionText,
                   resolvedBy := some resolvedBy,
                   resolvedAt := some now }
    let newIncidents :=
      st.incidents.map (fun i => if i.id == incidentId then updated else i)
    let st1 := { st with incidents := newIncidents }
    let (st2, _) := log st1
      { userId := some resolvedBy, action := "SECURITY_INCIDENT_RESOLVED",
        resource := "SecurityIncident",
        resourceId := some (toString incidentId),
        details := some resolutionText, ipAddress := none,
        userAgent := none, status := "SUCCESS", errorMessage := none,
        duration := none } now
    .ok (st2, updated)

end AuditService

/-! ## Helper lemmas -/

/-- Filtering first by a weaker predicate does not change a filter. -/
theorem filter_filter_of_imp {α : Type} (p q : α → Bool) (l : List α)
    (h : ∀ x, q x = true → p x = true) :
    (l.filter p).filter q = l.filter q := by
  induction l with
  | nil => rfl
  | cons a l ih =>
    by_cases hq : q a = true
    · have hp := h a hq
      simp [List.filter_cons, hp, hq, ih]
    · by_cases hp : p a = true <;>
        simp [List.filter_cons, hp, hq, ih]

/-- Filtering first by a weaker predicate does not change a find?. -/
theorem find?_filter_of_imp {α : Type} (p q : α → Bool) (l : List α)
    (h : ∀ x, q x = true → p x = true) :
    (l.filter p).find? q = l.find? q := by
  induction l with
  | nil => rfl
  | cons a l ih =>
    by_cases hq : q a = true
    · have hp := h a hq
      simp [List.filter_cons, hp, List.find?_cons, hq]
    · by_cases hp : p a = true <;>
        simp [List.filter_cons, hp, List.find?_cons, hq, ih]

/-- find? over an appended singleton none of whose predecessors match. -/
theorem find?_append_singleton {α : Type} (p : α → Bool) (l : List α) (x : α)
    (h : ∀ y ∈ l, p y = false) (hx : p x = true) :
    (l ++ [x]).find? p = some x := by
  induction l with
  | nil => simp [List.find?, hx]
  | cons a l ih =>
    have ha := h a (List.mem_cons_self a l)
    simp only [List.cons_append, List.find?_cons, ha]
    exact ih (fun y hy => h y (List.mem_cons_of_mem a hy))

/-- A map that fixes every member of a list is the identity on it. -/
theorem map_eq_self_of_mem {α : Type} (f : α → α) (l : List α)
    (h : ∀ a ∈ l, f a = a) : l.map f = l := by
  induction l with
  | nil => rfl
  | cons a l ih =>
    rw [List.map_cons, h a (List.mem_cons_self a l),
      ih (fun b hb => h b (List.mem_cons_of_mem a hb))]

/-- Filter commutes with a map that leaves the predicate unchanged. -/
theorem filter_map_of_pred_eq {α : Type} (p : α → Bool) (f : α → α)
    (l : List α) (h : ∀ x, p (f x) = p x) :
    (l.map f).filter p = (l.filter p).map f := by
  induction l with
  | nil => rfl
  | cons a l ih =>
    by_cases ha : p a = true <;>
      simp [List.filter_cons, h, ha, ih]

/-- Projection of a userRoles update, for rewriting. -/
theorem userRoles_update (db : RBACDb) (l : List UserRole) :
    ({ db with userRoles := l } : RBACDb).userRoles = l := rfl

/-- Role lookups ignore the userRoles table. -/
theorem findRoleById_update (db : RBACDb) (l : List UserRole) (rid : Nat) :
    findRoleById { db with userRoles := l } rid = findRoleById db rid := rfl

/-- Role-permission lookups ignore the userRoles table. -/
theorem rolePermsOf_update (db : RBACDb) (l : List UserRole) (ur : UserRole) :
    rolePermsOf { db with userRoles := l } ur = rolePermsOf db ur := rfl

/-! ## Claim C2 — expired role assignments are invisible to resolution -/

/-- Claim C2: assignments whose expiry lies in the past are excluded from
every resolution query — deleting them from the ledger changes neither
getUserPermissions (effectivePermissions) nor hasPermission nor hasRole —
and an actor all of whose assignments are past-expired resolves to the
empty permission set. -/
theorem claim_C2 (db : RBACDb) (u : UserId) (now : Time) :
    (RBACService.getUserPermissions
        { db with userRoles := db.userRoles.filter (fun ur => !pastExpired now ur) }
        u now =
      RBACService.getUserPermissions db u now) ∧
    (∀ p : Permission,
      RBACService.hasPermission
          { db with userRoles := db.userRoles.filter (fun ur => !pastExpired now ur) }
          u p now =
        RBACService.hasPermission db u p now) ∧
    (∀ r : String,
      RBACService.hasRole
          { db with userRoles := db.userRoles.filter (fun ur => !pastExpired now ur) }
          u r now =
        RBACService.hasRole db u r now) ∧
    ((∀ ur ∈ db.userRoles, ur.userId = u → pastExpired now ur = true) →
      RBACService.getUserPermissions db u now = []) := by
  have hnotpast : ∀ ur : UserRole, notExpired now ur = true →
      (!pastExpired now ur) = true := by
    intro ur h
    unfold notExpired at h
    unfold pastExpired
    cases hx : ur.expiresAt with
    | none => rfl
    | some t =>
      rw [hx] at h
      simp at h ⊢
      exact le_of_lt h
  have hsub : ∀ ur : UserRole,
      (ur.userId == u && notExpired now ur) = true →
      (!pastExpired now ur) = true := by
    intro ur h
    simp only [Bool.and_eq_true] at h
    exact hnotpast ur h.2
  have key := filter_filter_of_imp (fun ur => !pastExpired now ur)
    (fun ur => ur.userId == u && notExpired now ur) db.userRoles hsub
  refine ⟨?_, ?_, ?_, ?_⟩
  · simp only [RBACService.getUserPermissions, userRoles_update,
      rolePermsOf_update]
    rw [key]
  · intro p
    simp only [RBACService.hasPermission, userRoles_update, rolePermsOf_update]
    rw [key]
  · intro r
    simp only [RBACService.hasRole, userRoles_update, findRoleById_update]
    rw [find?_filter_of_imp]
    intro x hx
    have h3 : notExpired now x = true := by
      simp only [Bool.and_eq_true] at hx
      tauto
    exact hnotpast x h3
  · intro h
    simp only [RBACService.getUserPermissions]
    have hnil : db.userRoles.filter
        (fun ur => ur.userId == u && notExpired now ur) = [] := by
      rw [List.filter_eq_nil_iff]
      intro ur hur hcontra
      simp only [Bool.and_eq_true, beq_iff_eq] at hcontra
      have hpast := h ur hur hcontra.1
      have hne := hcontra.2
      unfold notExpired at hne
      unfold pastExpired at hpast
      cases hx : ur.expiresAt with
      | none => rw [hx] at hpast; simp at hpast
      | some t =>
        rw [hx] at hpast hne
        simp at hpast hne
        exact absurd hne (lt_asymm hpast)
    rw [hnil]
    rfl

/-- Witness for claim C2: an actor holding only an assignment that
expired at instant 50, evaluated at instant 100, resolves to no
permissions, no permission check passes, and the role check fails. -/
theorem claim_C2_witness :
    RBACService.getUserPermissions
        { roles := [{ id := 1, name := "member", description := "Standard team member",
                      permissions := ["projects:read"], isSystem := true }],
          userRoles := [{ userId := "u1", roleId := 1, grantedBy := "admin",
                          expiresAt := some 50 }] } "u1" 100 = [] := by
  exact (claim_C2
    { roles := [{ id := 1, name := "member", description := "Standard team member",
                  permissions := ["projects:read"], isSystem := true }],
      userRoles := [{ userId := "u1", roleId := 1, grantedBy := "admin",
                      expiresAt := some 50 }] } "u1" 100).2.2.2 (by decide)

/-! ## Claim C6 — the Audit Recorder never raises to its caller -/

/-- Claim C6: for every event, AuditService.log never raises an error to
its caller: the result is always ok; a persistence failure is swallowed
(the call returns normally with no entry), a failure inside the
subsequent anomaly-detection evaluation is likewise swallowed, and on
full success the persisted entry is returned. -/
theorem claim_C6 (persist : Except String AuditEntry)
    (detect : AuditEntry → Except String Unit) :
    (∃ v, AuditService.tryLog persist detect = .ok v) ∧
    (∀ msg, persist = .error msg →
      AuditService.tryLog persist detect = .ok none) ∧
    (∀ entry msg, persist = .ok entry → detect entry = .error msg →
      AuditService.tryLog persist detect = .ok none) ∧
    (∀ entry, persist = .ok entry → detect entry = .ok () →
      AuditService.tryLog persist detect = .ok (some entry)) := by
  refine ⟨?_, ?_, ?_, ?_⟩
  · cases hp : persist with
    | error m =>
      exact ⟨none, by simp [AuditService.tryLog, hp, Bind.bind, Except.bind]⟩
    | ok a =>
      cases hd : detect a with
      | error m =>
        exact ⟨none, by
          simp [AuditService.tryLog, hp, hd, Bind.bind, Except.bind]⟩
      | ok v =>
        exact ⟨some a, by
          simp [AuditService.tryLog, hp, hd, Bind.bind, Except.bind, Pure.pure,
            Except.pure]⟩
  · intro msg hp
    simp [AuditService.tryLog, hp, Bind.bind, Except.bind]
  · intro entry msg hp hd
    simp [AuditService.tryLog, hp, hd, Bind.bind, Except.bind]
  · intro entry hp hd
    simp [AuditService.tryLog, hp, hd, Bind.bind, Except.bind, Pure.pure,
      Except.pure]

/-- Witness for claim C6 at concrete inputs: a failing persistence step
returns ok none, and a failing detection step after a successful persist
also returns ok none. -/
theorem claim_C6_witness :
    AuditService.tryLog (Except.error "database unavailable")
        (fun _ => Except.ok ()) = .ok none ∧
    AuditService.tryLog
        (Except.ok { id := 0, userId := some "u1", action := "LOGIN",
                     resource := "Auth", resourceId := none, details := none,
                     ipAddress := none, userAgent := none, status := "SUCCESS",
                     errorMessage := none, duration := none, createdAt := 0 })
        (fun _ => Except.error "detector crashed") = .ok none := by
  constructor
  · exact (claim_C6 (Except.error "database unavailable")
      (fun _ => Except.ok ())).2.1 "database unavailable" rfl
  · exact (claim_C6 _ (fun _ => Except.error "detector crashed")).2.2.1 _
      "detector crashed" rfl rfl

/-! ## Claim C10 — JWT-embedded permissions dominate the middleware check -/

/-- Claim C10: requirePermission (and requireAllPermissions) allows the
request whenever the required permissions are contained in the JWT
permission list, for every state of the role store — the database check
runs only when the token list lacks a permission and can only grant
access, never revoke it: the middleware allows exactly when the token
list suffices or the database check passes. -/
theorem claim_C10 (perms : List Permission) (u : AuthedUser) (now : Time) :
    (∀ db : RBACDb, (∃ p ∈ perms, p ∈ u.permissions) →
      AuthMiddleware.requirePermission perms db now (some u) = .allowed) ∧
    (∀ db : RBACDb, (∀ p ∈ perms, p ∈ u.permissions) →
      AuthMiddleware.requireAllPermissions perms db now (some u) = .allowed) ∧
    (∀ db : RBACDb,
      AuthMiddleware.requirePermission perms db now (some u) = .allowed ↔
        ((∃ p ∈ perms, p ∈ u.permissions) ∨
         RBACService.hasAnyPermission db u.userId perms now = true)) ∧
    (∀ db : RBACDb,
      AuthMiddleware.requireAllPermissions perms db now (some u) = .allowed ↔
        ((∀ p ∈ perms, p ∈ u.permissions) ∨
         RBACService.hasAllPermissions db u.userId perms now = true)) := by
  have hany : (perms.any (fun p => u.permissions.contains p) = true) ↔
      (∃ p ∈ perms, p ∈ u.permissions) := by
    simp [List.any_eq_true, List.contains]
  have hall : (perms.all (fun p => u.permissions.contains p) = true) ↔
      (∀ p ∈ perms, p ∈ u.permissions) := by
    simp [List.all_eq_true, List.contains]
  refine ⟨?_, ?_, ?_, ?_⟩
  · intro db hex
    simp only [AuthMiddleware.requirePermission]
    rw [if_pos (hany.mpr hex)]
  · intro db hallp
    simp only [AuthMiddleware.requireAllPermissions]
    rw [if_pos (hall.mpr hallp)]
  · intro db
    simp only [AuthMiddleware.requirePermission]
    by_cases h1 : perms.any (fun p => u.permissions.contains p) = true
    · rw [if_pos h1]
      exact iff_of_true rfl (Or.inl (hany.mp h1))
    · rw [if_neg h1]
      by_cases h2 : RBACService.hasAnyPermission db u.userId perms now = true
      · rw [if_pos h2]
        exact iff_of_true rfl (Or.inr h2)
      · rw [if_neg h2]
        refine iff_of_false (by simp) ?_
        rintro (hex | hdb)
        · exact h1 (hany.mpr hex)
        · exact h2 hdb
  · intro db
    simp only [AuthMiddleware.requireAllPermissions]
    by_cases h1 : perms.all (fun p => u.permissions.contains p) = true
    · rw [if_pos h1]
      exact iff_of_true rfl (Or.inl (hall.mp h1))
    · rw [if_neg h1]
      by_cases h2 : RBACService.hasAllPermissions db u.userId perms now = true
      · rw [if_pos h2]
        exact iff_of_true rfl (Or.inr h2)
      · rw [if_neg h2]
        refine iff_of_false (by simp) ?_
        rintro (hex | hdb)
        · exact h1 (hall.mpr hex)
        · exact h2 hdb

/-- Witness for claim C10: a user whose token carries projects:read is
allowed by both middlewares against an empty role store — the state after
every one of their roles has been revoked. -/
theorem claim_C10_witness :
    AuthMiddleware.requirePermission ["projects:read"]
        { roles := [], userRoles := [] } 0
        (some { userId := "u1", roles := ["member"],
                permissions := ["projects:read"] }) = .allowed ∧
    AuthMiddleware.requireAllPermissions ["projects:read"]
        { roles := [], userRoles := [] } 0
        (some { userId := "u1", roles := ["member"],
                permissions := ["projects:read"] }) = .allowed := by
  constructor
  · exact (claim_C10 ["projects:read"]
      { userId := "u1", roles := ["member"], permissions := ["projects:read"] }
      0).1 { roles := [], userRoles := [] } (by decide)
  · exact (claim_C10 ["projects:read"]
      { userId := "u1", roles := ["member"], permissions := ["projects:read"] }
      0).2.1 { roles := [], userRoles := [] } (by decide)

/-! ## Claim C1 — team-scoped permission resolution -/

/-- An RBAC state granting nothing globally. -/
def emptyRbacDb : RBACDb := { roles := [], userRoles := [] }

/-- A membership table whose only row records that u1 was LEAD of t1 and
left the team at instant 50. -/
def leftLeadMembership : List TeamMember :=
  [{ teamId := "t1", userId := "u1", role := TeamRole.LEAD, joinedAt := 0,
     leftAt := some 50 }]

/-- A membership table whose only row is an active LEAD membership of u1
in t1. -/
def activeLeadMembership : List TeamMember :=
  [{ teamId := "t1", userId := "u1", role := TeamRole.LEAD, joinedAt := 0,
     leftAt := none }]

/-- Claim C1 counterexample: the claim requires hasTeamPermission to
return false for an actor with no active membership in the team, but the
membership lookup has no leftAt filter — an actor whose LEAD membership
in t1 ended at instant 50 still receives teams:manage_members in t1 at
instant 100, with the global check false and no active membership row
present. -/
theorem claim_C1_counterexample :
    RBACService.hasTeamPermission emptyRbacDb leftLeadMembership "u1" "t1"
        "teams:manage_members" 100 = true ∧
    RBACService.hasPermission emptyRbacDb "u1" "teams:manage_members" 100 = false ∧
    (∀ m ∈ leftLeadMembership, m.leftAt ≠ none) := by
  refine ⟨rfl, rfl, ?_⟩
  decide

/-- Claim C1 as amended: hasTeamPermission returns true exactly when the
global check passes or the (teamId, userId) membership row — active or
not, the lookup has no leftAt filter — carries a team role whose
implied-permission subset contains the permission; in particular an actor
with no membership row at all in the team is denied. -/
theorem claim_C1 (db : RBACDb) (tms : List TeamMember) (u : UserId)
    (t : TeamId) (p : Permission) (now : Time) :
    RBACService.hasTeamPermission db tms u t p now = true ↔
      (RBACService.hasPermission db u p now = true ∨
       ∃ m, findMembership tms t u = some m ∧
         p ∈ RBACService.teamPermissions m.role) := by
  simp only [RBACService.hasTeamPermission]
  by_cases hg : RBACService.hasPermission db u p now = true
  · rw [if_pos hg]
    exact iff_of_true rfl (Or.inl hg)
  · rw [if_neg hg]
    cases hm : findMembership tms t u with
    | none =>
      constructor
      · intro hfalse
        exact absurd hfalse (by simp)
      · rintro (hgl | ⟨m, hm2, _⟩)
        · exact absurd hgl hg
        · exact Option.noConfusion hm2
    | some m =>
      constructor
      · intro hc
        refine Or.inr ⟨m, rfl, ?_⟩
        simpa [List.contains] using hc
      · rintro (hgl | ⟨m2, hm2, hp2⟩)
        · exact absurd hgl hg
        · cases hm2
          simpa [List.contains] using hp2

/-- Witness for claim C1: an active LEAD membership in t1 grants
teams:manage_members in t1, and the same actor is denied in t2 where no
membership row exists. -/
theorem claim_C1_witness :
    RBACService.hasTeamPermission emptyRbacDb activeLeadMembership "u1" "t1"
        "teams:manage_members" 100 = true ∧
    RBACService.hasTeamPermission emptyRbacDb activeLeadMembership "u1" "t2"
        "teams:manage_members" 100 = false := by
  constructor
  · exact (claim_C1 emptyRbacDb activeLeadMembership "u1" "t1"
      "teams:manage_members" 100).mpr
      (Or.inr ⟨{ teamId := "t1", userId := "u1", role := TeamRole.LEAD,
                 joinedAt := 0, leftAt := none }, by decide, by decide⟩)
  · have h := (claim_C1 emptyRbacDb activeLeadMembership "u1" "t2"
      "teams:manage_members" 100)
    cases hc : RBACService.hasTeamPermission emptyRbacDb activeLeadMembership
        "u1" "t2" "teams:manage_members" 100
    · rfl
    · exfalso
      rcases h.mp hc with hgl | ⟨m, hm, _⟩
      · exact absurd hgl (by decide)
      · have hnone : findMembership activeLeadMembership "t2" "u1" = none := by
          decide
        rw [hnone] at hm
        exact Option.noConfusion hm

/-! ## Claim C3 — the sole-owner guard on team-membership mutation -/

/-- A team whose only membership row is the sole active OWNER u1 of t1. -/
def soleOwnerTeam : List TeamMember :=
  [{ teamId := "t1", userId := "u1", role := TeamRole.OWNER, joinedAt := 0,
     leftAt := none }]

/-- Claim C3 counterexample: the claim requires every demotion of the
sole active OWNER to be rejected, but the role-update route has no
owner-count guard at all — demoting u1, the sole (active) OWNER of t1,
to MEMBER succeeds. -/
theorem claim_C3_counterexample :
    TeamRoutes.updateMemberRole soleOwnerTeam "t1" "u1" TeamRole.MEMBER =
      .ok [{ teamId := "t1", userId := "u1", role := TeamRole.MEMBER,
             joinedAt := 0, leftAt := none }] ∧
    ownerCount soleOwnerTeam "t1" = 1 ∧
    (soleOwnerTeam.filter (fun m =>
      m.role == TeamRole.OWNER && m.leftAt == none)).length = 1 := by
  refine ⟨rfl, rfl, ?_⟩
  decide

/-- Claim C3 as amended: only the member-removal route guards ownership —
it counts the team's OWNER-role membership rows regardless of leftAt and,
when the target row has role OWNER and that count is at most one, rejects
with a 400 response instructing ownership transfer first (not a
ConflictError); any other removal of an existing member succeeds, and the
role-update (demotion) route performs no owner check and succeeds on
every existing membership row. -/
theorem claim_C3 (tms : List TeamMember) (t : TeamId) (u : UserId)
    (now : Time) (r : TeamRole) (m : TeamMember)
    (hm : findMembership tms t u = some m) :
    (m.role = TeamRole.OWNER → ownerCount tms t ≤ 1 →
      TeamRoutes.removeMember tms t u now =
        .clientError 400 "Cannot remove the last owner. Transfer ownership first.") ∧
    (¬(m.role = TeamRole.OWNER ∧ ownerCount tms t ≤ 1) →
      ∃ tms2, TeamRoutes.removeMember tms t u now = .ok tms2) ∧
    (∃ tms2, TeamRoutes.updateMemberRole tms t u r = .ok tms2) := by
  refine ⟨?_, ?_, ?_⟩
  · intro hrole hcount
    simp only [TeamRoutes.removeMember, hm]
    rw [if_pos]
    simp [hrole, hcount]
  · intro hnot
    simp only [TeamRoutes.removeMember, hm]
    rw [if_neg]
    · exact ⟨_, rfl⟩
    · intro hcond
      simp only [Bool.and_eq_true, beq_iff_eq, decide_eq_true_eq] at hcond
      exact hnot hcond
  · simp only [TeamRoutes.updateMemberRole, hm]
    exact ⟨_, rfl⟩

/-- True exactly on a successful route outcome. -/
def RouteOutcome.isOk {α : Type} : RouteOutcome α → Bool
  | .ok _ => true
  | _ => false

/-- Witness for claim C3 at concrete inputs: removing the sole OWNER of
t1 is rejected with the 400 response, and the same membership row can be
demoted through the role-update route. -/
theorem claim_C3_witness :
    TeamRoutes.removeMember soleOwnerTeam "t1" "u1" 100 =
      .clientError 400 "Cannot remove the last owner. Transfer ownership first." ∧
    (TeamRoutes.updateMemberRole soleOwnerTeam "t1" "u1"
      TeamRole.VIEWER).isOk = true := by
  constructor
  · exact (claim_C3 soleOwnerTeam "t1" "u1" 100 TeamRole.VIEWER
      { teamId := "t1", userId := "u1", role := TeamRole.OWNER, joinedAt := 0,
        leftAt := none } (by decide)).1 rfl (by decide)
  · obtain ⟨tms2, h⟩ := (claim_C3 soleOwnerTeam "t1" "u1" 100 TeamRole.VIEWER
      { teamId := "t1", userId := "u1", role := TeamRole.OWNER, joinedAt := 0,
        leftAt := none } (by decide)).2.2
    rw [h]
    rfl

/-! ## Claim C5 — the incident status state machine -/

/-- An audit state holding a single incident already marked
FALSE_POSITIVE. -/
def falsePositiveState : AuditState :=
  { auditLog := [],
    incidents := [{ id := 0, type := "BRUTE_FORCE", severity := "HIGH",
                    title := "Multiple failed login attempts detected",
                    description := "detection text",
                    status := IncidentStatus.FALSE_POSITIVE, detectedAt := 0,
                    affectedUsers := ["u1"], resolution := none,
                    resolvedBy := none, resolvedAt := none }],
    nextEntryId := 0, nextIncidentId := 1 }

/-- An audit state holding a single incident already RESOLVED. -/
def resolvedState : AuditState :=
  { auditLog := [],
    incidents := [{ id := 0, type := "BRUTE_FORCE", severity := "HIGH",
                    title := "Multiple failed login attempts detected",
                    description := "detection text",
                    status := IncidentStatus.RESOLVED, detectedAt := 0,
                    affectedUsers := ["u1"], resolution := some "first pass",
                    resolvedBy := some "admin", resolvedAt := some 10 }],
    nextEntryId := 0, nextIncidentId := 1 }

/-- Claim C5 counterexample: the claim forbids any status change of an
incident already in FALSE_POSITIVE, but resolveIncident has no status
guard — resolving the FALSE_POSITIVE incident moves its status to
RESOLVED. -/
theorem claim_C5_counterexample :
    falsePositiveState.incidents.map (fun i => i.status) =
      [IncidentStatus.FALSE_POSITIVE] ∧
    (AuditService.resolveIncident falsePositiveState 0 "closing" "admin"
        100).toOption.map (fun r => (r.2.status, r.1.incidents.map
          (fun i => i.status))) =
      some (IncidentStatus.RESOLVED, [IncidentStatus.RESOLVED]) := by
  constructor
  · rfl
  · rfl

/-- Claim C5 as amended: resolveIncident is the only status mutation in
the audit service and it is unguarded — whenever the incident row exists
it stamps status RESOLVED together with resolution, resolver and
resolvedAt, regardless of the current status (so an incident already
RESOLVED keeps status RESOLVED, while a FALSE_POSITIVE or INVESTIGATING
incident is moved to RESOLVED), leaving every other field of the row
unchanged; when the row is absent the Prisma update throws P2025. -/
theorem claim_C5 (st : AuditState) (incidentId : Nat) (res : String)
    (resolver : UserId) (now : Time) :
    (∀ found, st.incidents.find? (fun i => i.id == incidentId) = some found →
      ∃ st2 inc,
        AuditService.resolveIncident st incidentId res resolver now =
          .ok (st2, inc) ∧
        inc.status = IncidentStatus.RESOLVED ∧
        inc.resolution = some res ∧
        inc.resolvedBy = some resolver ∧
        inc.resolvedAt = some now ∧
        inc.id = found.id ∧ inc.type = found.type ∧
        inc.severity = found.severity ∧ inc.title = found.title ∧
        inc.description = found.description ∧
        inc.detectedAt = found.detectedAt ∧
        inc.affectedUsers = found.affectedUsers) ∧
    (st.incidents.find? (fun i => i.id == incidentId) = none →
      AuditService.resolveIncident st incidentId res resolver now =
        .error (.prismaError "P2025")) := by
  constructor
  · intro found hfound
    simp only [AuditService.resolveIncident, hfound]
    exact ⟨_, _, rfl, rfl, rfl, rfl, rfl, rfl, rfl, rfl, rfl, rfl, rfl, rfl⟩
  · intro hnone
    simp only [AuditService.resolveIncident, hnone]

/-- Witness for claim C5: resolving an incident that is already RESOLVED
succeeds again and restamps it, its status staying RESOLVED. -/
theorem claim_C5_witness :
    (AuditService.resolveIncident resolvedState 0 "second pass" "auditor"
        200).toOption.map (fun r =>
          (r.2.status, r.2.resolution, r.2.resolvedBy, r.2.resolvedAt)) =
      some (IncidentStatus.RESOLVED, some "second pass", some "auditor",
        some 200) := by
  obtain ⟨st2, inc, h1, h2, h3, h4, h5, -⟩ :=
    (claim_C5 resolvedState 0 "second pass" "auditor" 200).1
      { id := 0, type := "BRUTE_FORCE", severity := "HIGH",
        title := "Multiple failed login attempts detected",
        description := "detection text",
        status := IncidentStatus.RESOLVED, detectedAt := 0,
        affectedUsers := ["u1"], resolution := some "first pass",
        resolvedBy := some "admin", resolvedAt := some 10 } (by decide)
  rw [h1]
  simp [Except.toOption, h2, h3, h4, h5]

/-! ## Claim C8 — duplicate and unknown-role handling of assignRole -/

/-- Projection of a userRoles update on the roles side, for rewriting. -/
theorem roles_update (db : RBACDb) (l : List UserRole) :
    ({ db with userRoles := l } : RBACDb).roles = db.roles := rfl

/-- The member role row used by the concrete RBAC examples. -/
def memberRole : Role :=
  { id := 1, name := "member", description := "Standard team member",
    permissions := ["users:read", "teams:read", "projects:read",
      "projects:write", "documents:read", "documents:write", "github:read",
      "github:write", "ai:analyze"], isSystem := true }

/-- An RBAC state holding the member role and no assignments. -/
def memberRoleDb : RBACDb := { roles := [memberRole], userRoles := [] }

/-- The state after assigning the member role to u1. -/
def memberAssignedDb : RBACDb :=
  { roles := [memberRole],
    userRoles := [{ userId := "u1", roleId := 1, grantedBy := "admin",
                    expiresAt := none }] }

/-- Claim C8 counterexample: the claim names ConflictError (409) for the
duplicate and NotFoundError (404) for the unknown role, but both rejects
throw a plain Error, which the error handler maps to status 500. -/
theorem claim_C8_counterexample :
    RBACService.assignRole memberRoleDb "u1" "member" "admin" none =
      .ok memberAssignedDb ∧
    RBACService.assignRole memberAssignedDb "u1" "member" "admin" none =
      .error (.jsError "User already has role \x27member\x27") ∧
    (JsError.jsError "User already has role \x27member\x27").statusCode = 500 ∧
    RBACService.assignRole memberRoleDb "u1" "ghost" "admin" none =
      .error (.jsError "Role \x27ghost\x27 not found") ∧
    (JsError.jsError "Role \x27ghost\x27 not found").statusCode = 500 ∧
    (∀ m, JsError.statusCode (.conflictError m) = 409) ∧
    (∀ m, JsError.statusCode (.notFoundError m) = 404) := by
  exact ⟨rfl, rfl, rfl, rfl, rfl, fun _ => rfl, fun _ => rfl⟩

/-- Claim C8 as amended: assignRole rejects a duplicate assignment with a
plain Error saying the user already has the role, and an unknown role
name with a plain Error saying the role was not found (both reach the
client as status 500, not ConflictError 409 or NotFoundError 404);
assigning the same (actor, role) pair twice errors on the second call;
revokeRole is an idempotent no-op when the role exists but no assignment
does, and after a revocation re-assignment of the same pair succeeds. -/
theorem claim_C8 (db : RBACDb) (u : UserId) (r : String) (g : UserId)
    (e : Option Time) :
    (db.roles.find? (fun x => x.name == r) = none →
      RBACService.assignRole db u r g e =
        .error (.jsError ("Role \x27" ++ r ++ "\x27 not found"))) ∧
    (∀ role, db.roles.find? (fun x => x.name == r) = some role →
      (∃ ur ∈ db.userRoles, ur.userId = u ∧ ur.roleId = role.id) →
      RBACService.assignRole db u r g e =
        .error (.jsError ("User already has role \x27" ++ r ++ "\x27"))) ∧
    (∀ role, db.roles.find? (fun x => x.name == r) = some role →
      (∀ ur ∈ db.userRoles, ¬(ur.userId = u ∧ ur.roleId = role.id)) →
      ∃ db2, RBACService.assignRole db u r g e = .ok db2 ∧
        RBACService.assignRole db2 u r g e =
          .error (.jsError ("User already has role \x27" ++ r ++ "\x27"))) ∧
    (∀ role, db.roles.find? (fun x => x.name == r) = some role →
      (∀ ur ∈ db.userRoles, ¬(ur.userId = u ∧ ur.roleId = role.id)) →
      RBACService.revokeRole db u r = .ok db) ∧
    (∀ role, db.roles.find? (fun x => x.name == r) = some role →
      ∃ db2, RBACService.revokeRole db u r = .ok db2 ∧
        (RBACService.assignRole db2 u r g e).isOk = true) := by
  refine ⟨?_, ?_, ?_, ?_, ?_⟩
  · intro h
    simp only [RBACService.assignRole, h]
  · rintro role hrole ⟨ur, hmem, hu, hr⟩
    have hsome : (db.userRoles.find?
        (fun x => x.userId == u && x.roleId == role.id)).isSome := by
      rw [List.find?_isSome]
      exact ⟨ur, hmem, by simp [hu, hr]⟩
    obtain ⟨x, hx⟩ := Option.isSome_iff_exists.mp hsome
    simp only [RBACService.assignRole, hrole, hx]
  · intro role hrole hnodup
    have hfind : db.userRoles.find?
        (fun x => x.userId == u && x.roleId == role.id) = none := by
      rw [List.find?_eq_none]
      intro x hmem hx
      simp only [Bool.and_eq_true, beq_iff_eq] at hx
      exact hnodup x hmem hx
    have h1 : RBACService.assignRole db u r g e =
        .ok ⟨db.roles, db.userRoles ++
          [{ userId := u, roleId := role.id, grantedBy := g,
             expiresAt := e }]⟩ := by
      simp only [RBACService.assignRole, hrole, hfind]
    refine ⟨_, h1, ?_⟩
    have hfind2 : (db.userRoles ++
        [({ userId := u, roleId := role.id, grantedBy := g,
            expiresAt := e } : UserRole)]).find?
          (fun x => x.userId == u && x.roleId == role.id) =
        some ({ userId := u, roleId := role.id, grantedBy := g,
                expiresAt := e } : UserRole) := by
      apply find?_append_singleton
      · intro y hy
        cases hxy : (y.userId == u && y.roleId == role.id)
        · rfl
        · exfalso
          simp only [Bool.and_eq_true, beq_iff_eq] at hxy
          exact hnodup y hy hxy
      · simp
    simp only [RBACService.assignRole, roles_update, userRoles_update, hrole,
      hfind2]
  · intro role hrole hnodup
    have hfilter : db.userRoles.filter
        (fun x => !(x.userId == u && x.roleId == role.id)) = db.userRoles := by
      rw [List.filter_eq_self]
      intro x hmem
      cases hxy : (x.userId == u && x.roleId == role.id)
      · rfl
      · exfalso
        simp only [Bool.and_eq_true, beq_iff_eq] at hxy
        exact hnodup x hmem hxy
    simp only [RBACService.revokeRole, hrole, hfilter]
  · intro role hrole
    have h1 : RBACService.revokeRole db u r =
        .ok ⟨db.roles, db.userRoles.filter
          (fun ur => !(ur.userId == u && ur.roleId == role.id))⟩ := by
      simp only [RBACService.revokeRole, hrole]
    refine ⟨_, h1, ?_⟩
    have hfind : (db.userRoles.filter
        (fun x => !(x.userId == u && x.roleId == role.id))).find?
          (fun x => x.userId == u && x.roleId == role.id) = none := by
      rw [List.find?_eq_none]
      intro x hmem hx
      have := (List.mem_filter.mp hmem).2
      rw [hx] at this
      exact Bool.noConfusion this
    simp only [RBACService.assignRole, roles_update, userRoles_update, hrole,
      hfind, Except.isOk, Except.toBool]

/-- Witness for claim C8 at concrete inputs: the first assignment of the
member role to u1 succeeds and the second is rejected as a duplicate;
revoking with no assignment present is a no-op; after a revocation the
pair can be assigned again. -/
theorem claim_C8_witness :
    (RBACService.assignRole memberRoleDb "u1" "member" "admin" none =
        .ok memberAssignedDb ∧
      RBACService.assignRole memberAssignedDb "u1" "member" "admin" none =
        .error (.jsError "User already has role \x27member\x27")) ∧
    RBACService.revokeRole memberRoleDb "u1" "member" = .ok memberRoleDb ∧
    RBACService.revokeRole memberAssignedDb "u1" "member" =
      .ok memberRoleDb := by
  refine ⟨?_, ?_, ?_⟩
  · obtain ⟨db2, h1, h2⟩ :=
      (claim_C8 memberRoleDb "u1" "member" "admin" none).2.2.1 memberRole
        (by decide) (by decide)
    have hdb2 : db2 = memberAssignedDb := by
      have := h1
      rw [show RBACService.assignRole memberRoleDb "u1" "member" "admin" none =
        .ok memberAssignedDb from rfl] at this
      exact (Except.ok.injEq _ _).mp this.symm
    rw [hdb2] at h1 h2
    exact ⟨h1, h2⟩
  · exact (claim_C8 memberRoleDb "u1" "member" "admin" none).2.2.2.1 memberRole
      (by decide) (by decide)
  · obtain ⟨db2, h1, -⟩ :=
      (claim_C8 memberAssignedDb "u1" "member" "admin" none).2.2.2.2 memberRole
        (by decide)
    have hdb2 : db2 = memberRoleDb := by
      have := h1
      rw [show RBACService.revokeRole memberAssignedDb "u1" "member" =
        .ok memberRoleDb from rfl] at this
      exact (Except.ok.injEq _ _).mp this.symm
    rw [hdb2] at h1
    exact h1

/-! ## Claim C9 — expired assignments still block re-assignment -/

/-- Claim C9: the duplicate check of assignRole matches any existing
(actor, roleId) row with no expiry filter, so an actor holding only a
past-expired assignment of the role — one the resolution filter treats as
absent — is still rejected as a duplicate; re-granting therefore requires
an explicit revokeRole first, after which assignment succeeds. -/
theorem claim_C9 (db : RBACDb) (u : UserId) (r : String) (g : UserId)
    (e : Option Time) (now : Time) (role : Role) (ur : UserRole) (t : Time)
    (hrole : db.roles.find? (fun x => x.name == r) = some role)
    (hmem : ur ∈ db.userRoles) (hu : ur.userId = u) (hr : ur.roleId = role.id)
    (hexp : ur.expiresAt = some t) (hpast : t < now) :
    RBACService.assignRole db u r g e =
      .error (.jsError ("User already has role \x27" ++ r ++ "\x27")) ∧
    notExpired now ur = false ∧
    (∀ p, RBACService.hasPermission { roles := db.roles, userRoles := [ur] }
      u p now = false) ∧
    (∀ rn, RBACService.hasRole { roles := db.roles, userRoles := [ur] }
      u rn now = false) ∧
    (∀ db2, RBACService.revokeRole db u r = .ok db2 →
      (RBACService.assignRole db2 u r g e).isOk = true) := by
  have hne : notExpired now ur = false := by
    unfold notExpired
    rw [hexp]
    simp
    exact le_of_lt hpast
  refine ⟨?_, hne, ?_, ?_, ?_⟩
  · exact (claim_C8 db u r g e).2.1 role hrole ⟨ur, hmem, hu, hr⟩
  · intro p
    simp only [RBACService.hasPermission]
    have hpred : (ur.userId == u && notExpired now ur) = false := by
      rw [hne]
      simp
    have hflt : ([ur].filter (fun x => x.userId == u && notExpired now x)) = [] := by
      simp [List.filter_cons, hpred]
    rw [hflt]
    rfl
  · intro rn
    simp only [RBACService.hasRole]
    simp [List.find?_cons, hne]
  · intro db2 hdb2
    simp only [RBACService.revokeRole, hrole] at hdb2
    have hdb2e := (Except.ok.injEq _ _).mp hdb2
    subst hdb2e
    have hfind : (db.userRoles.filter
        (fun x => !(x.userId == u && x.roleId == role.id))).find?
          (fun x => x.userId == u && x.roleId == role.id) = none := by
      rw [List.find?_eq_none]
      intro x hxmem hx
      have := (List.mem_filter.mp hxmem).2
      rw [hx] at this
      exact Bool.noConfusion this
    simp only [RBACService.assignRole, roles_update, userRoles_update, hrole,
      hfind, Except.isOk, Except.toBool]

/-- Witness for claim C9: u1 holds the member role expired at instant 50;
at instant 100 re-assignment is rejected as a duplicate even though the
assignment resolves to nothing, and after revokeRole the assignment
succeeds. -/
theorem claim_C9_witness :
    RBACService.assignRole
        { roles := [memberRole],
          userRoles := [{ userId := "u1", roleId := 1, grantedBy := "admin",
                          expiresAt := some 50 }] } "u1" "member" "admin" none =
      .error (.jsError "User already has role \x27member\x27") := by
  exact (claim_C9
    { roles := [memberRole],
      userRoles := [{ userId := "u1", roleId := 1, grantedBy := "admin",
                      expiresAt := some 50 }] } "u1" "member" "admin" none 100
    memberRole
    { userId := "u1", roleId := 1, grantedBy := "admin", expiresAt := some 50 }
    50 (by decide) (by decide) rfl rfl rfl (by decide)).1

/-! ## Claim C4 — incident creation merges instead of duplicating -/

/-- Well-formedness the id sequence of the incident table guarantees:
distinct row ids, all below the next value of the sequence. -/
def incidentIdsOk (st : AuditState) : Prop :=
  (st.incidents.map (fun i => i.id)).Nodup ∧
  ∀ i ∈ st.incidents, i.id < st.nextIncidentId

/-- Number of incidents a candidate would merge into: same type, shared
affected actor, status OPEN or INVESTIGATING, detected within the
correlation window. -/
def matchingCount (st : AuditState) (c : IncidentCandidate) (now : Time) :
    Nat :=
  (st.incidents.filter (matchesExisting c now)).length

/-- The BRUTE_FORCE incidents of a state. -/
def bfIncidents (st : AuditState) : List SecurityIncident :=
  st.incidents.filter (fun i => i.type == "BRUTE_FORCE")

/-- Appending to a description changes no field the dedup filter reads. -/
theorem matchesExisting_desc (c : IncidentCandidate) (now : Time)
    (i : SecurityIncident) (d : String) :
    matchesExisting c now { i with description := d } =
      matchesExisting c now i := rfl

/-- createSecurityIncident preserves the id-sequence invariant. -/
theorem createSecurityIncident_idsOk (st : AuditState)
    (c : IncidentCandidate) (now : Time) (h : incidentIdsOk st) :
    incidentIdsOk (AuditService.createSecurityIncident st c now) := by
  obtain ⟨hnd, hlt⟩ := h
  cases hfind : st.incidents.find? (matchesExisting c now) with
  | some ex =>
    simp only [AuditService.createSecurityIncident, hfind]
    constructor
    · have hmap : st.incidents.map (fun i =>
          (if i.id == ex.id then
            { i with description := i.description ++ "\n" ++ c.description }
          else i).id) = st.incidents.map (fun i => i.id) := by
        apply List.map_congr_left
        intro a _
        by_cases hid : (a.id == ex.id) = true <;> simp [hid]
      rw [List.map_map]
      rw [show ((fun i => i.id) ∘ (fun i =>
          if i.id == ex.id then
            { i with description := i.description ++ "\n" ++ c.description }
          else i)) = (fun i : SecurityIncident =>
          (if i.id == ex.id then
            { i with description := i.description ++ "\n" ++ c.description }
          else i).id) from rfl]
      rw [hmap]
      exact hnd
    · intro i hi
      obtain ⟨a, ha, hai⟩ := List.mem_map.mp hi
      by_cases hid : (a.id == ex.id) = true
      · rw [if_pos hid] at hai
        rw [← hai]
        exact hlt a ha
      · rw [if_neg hid] at hai
        rw [← hai]
        exact hlt a ha
  | none =>
    simp only [AuditService.createSecurityIncident, hfind]
    constructor
    · rw [List.map_append, List.nodup_append]
      refine ⟨hnd, by simp, ?_⟩
      intro x hx
      simp only [List.map_cons, List.map_nil, List.mem_singleton]
      obtain ⟨a, ha, hai⟩ := List.mem_map.mp hx
      intro hcontra
      rw [hcontra] at hai
      have := hlt a ha
      rw [hai] at this
      exact lt_irrefl _ this
    · intro i hi
      rcases List.mem_append.mp hi with hl | hr
      · exact Nat.lt_succ_of_lt (hlt i hl)
      · rw [List.mem_singleton.mp hr]
        exact Nat.lt_succ_self _

/-- createSecurityIncident with a candidate of one type leaves the
incidents of every other type untouched. -/
theorem createSecurityIncident_other_type (st : AuditState)
    (c : IncidentCandidate) (now : Time) (ty : String)
    (h : incidentIdsOk st) (hty : c.type ≠ ty) :
    (AuditService.createSecurityIncident st c now).incidents.filter
        (fun i => i.type == ty) =
      st.incidents.filter (fun i => i.type == ty) := by
  cases hfind : st.incidents.find? (matchesExisting c now) with
  | some ex =>
    have hexmem := List.mem_of_find?_eq_some hfind
    have hexpred := List.find?_some hfind
    have hexty : ex.type = c.type := by
      simp only [matchesExisting, Bool.and_eq_true, beq_iff_eq] at hexpred
      exact hexpred.1.1.1
    simp only [AuditService.createSecurityIncident, hfind]
    rw [filter_map_of_pred_eq]
    · apply map_eq_self_of_mem
      intro a ha
      have hamem := (List.mem_filter.mp ha).1
      have haty : a.type = ty := by
        have := (List.mem_filter.mp ha).2
        simpa [beq_iff_eq] using this
      have hid : (a.id == ex.id) = false := by
        cases hcases : (a.id == ex.id)
        · rfl
        · exfalso
          have haeq : a = ex := List.inj_on_of_nodup_map h.1 hamem hexmem
            (by simpa [beq_iff_eq] using hcases)
          rw [haeq] at haty
          rw [hexty] at haty
          exact hty haty
      simp [hid]
    · intro i
      by_cases hid : (i.id == ex.id) = true
      · simp only [if_pos hid, matchesExisting_desc]
      · simp only [if_neg hid]
  | none =>
    simp only [AuditService.createSecurityIncident, hfind]
    rw [List.filter_append]
    have : ((c.type : String) == ty) = false := by
      cases hcases : ((c.type : String) == ty)
      · rfl
      · exact absurd (by simpa [beq_iff_eq] using hcases) hty
    simp [List.filter_cons, this]

/-- Claim C4: createOrMerge preserves the invariant that at most one
OPEN/INVESTIGATING incident of the candidate type sharing an affected
actor exists within the rolling one-hour window; on a match it only
appends the candidate description newline-joined (severity, status and
all other fields unchanged, no row added), and with no match it inserts
exactly one new incident with status OPEN. -/
theorem claim_C4 (st : AuditState) (c : IncidentCandidate) (now : Time)
    (hids : incidentIdsOk st) :
    (matchingCount st c now ≤ 1 →
      matchingCount (AuditService.createSecurityIncident st c now) c now ≤ 1) ∧
    (∀ ex, st.incidents.find? (matchesExisting c now) = some ex →
      (AuditService.createSecurityIncident st c now).incidents =
        st.incidents.map (fun i =>
          if i.id == ex.id then
            { ex with description := ex.description ++ "\n" ++ c.description }
          else i) ∧
      (AuditService.createSecurityIncident st c now).incidents.length =
        st.incidents.length) ∧
    (st.incidents.find? (matchesExisting c now) = none →
      (AuditService.createSecurityIncident st c now).incidents =
        st.incidents ++
          [{ id := st.nextIncidentId, type := c.type, severity := c.severity,
             title := c.title, description := c.description,
             status := IncidentStatus.OPEN, detectedAt := now,
             affectedUsers := c.affectedUsers, resolution := none,
             resolvedBy := none, resolvedAt := none }]) := by
  refine ⟨?_, ?_, ?_⟩
  · intro hle
    unfold matchingCount at hle ⊢
    cases hfind : st.incidents.find? (matchesExisting c now) with
    | some ex =>
      simp only [AuditService.createSecurityIncident, hfind]
      rw [filter_map_of_pred_eq]
      · rw [List.length_map]
        exact hle
      · intro i
        by_cases hid : (i.id == ex.id) = true
        · simp only [if_pos hid, matchesExisting_desc]
        · simp only [if_neg hid]
    | none =>
      simp only [AuditService.createSecurityIncident, hfind]
      rw [List.filter_append]
      have hnil : st.incidents.filter (matchesExisting c now) = [] := by
        rw [List.filter_eq_nil_iff]
        exact List.find?_eq_none.mp hfind
      rw [hnil]
      simp only [List.nil_append]
      cases hm : matchesExisting c now
          { id := st.nextIncidentId, type := c.type, severity := c.severity,
            title := c.title, description := c.description,
            status := IncidentStatus.OPEN, detectedAt := now,
            affectedUsers := c.affectedUsers, resolution := none,
            resolvedBy := none, resolvedAt := none } <;>
        simp [List.filter_cons, hm]
  · intro ex hfind
    have hexmem := List.mem_of_find?_eq_some hfind
    constructor
    · simp only [AuditService.createSecurityIncident, hfind]
      apply List.map_congr_left
      intro a ha
      by_cases hid : (a.id == ex.id) = true
      · have haeq : a = ex := List.inj_on_of_nodup_map hids.1 ha hexmem
          (by simpa [beq_iff_eq] using hid)
        rw [if_pos hid, if_pos hid, haeq]
      · rw [if_neg hid, if_neg hid]
    · simp only [AuditService.createSecurityIncident, hfind]
      rw [List.length_map]
  · intro hfind
    simp only [AuditService.createSecurityIncident, hfind]

/-- The incident table used by the concrete C4 example: one OPEN
BRUTE_FORCE incident affecting u1, detected at instant 0. -/
def openBruteForceState : AuditState :=
  { auditLog := [],
    incidents := [{ id := 0, type := "BRUTE_FORCE", severity := "HIGH",
                    title := "Multiple failed login attempts detected",
                    description := "first detection",
                    status := IncidentStatus.OPEN, detectedAt := 0,
                    affectedUsers := ["u1"], resolution := none,
                    resolvedBy := none, resolvedAt := none }],
    nextEntryId := 0, nextIncidentId := 1 }

/-- Witness for claim C4: a second BRUTE_FORCE detection for u1 a
thousand milliseconds later merges into the existing OPEN incident — the
row count stays one and the match count stays at most one. -/
theorem claim_C4_witness :
    (AuditService.createSecurityIncident openBruteForceState
        (AuditService.bruteForceCandidate "u1" 6 (some "203.0.113.9"))
        1000).incidents.length = openBruteForceState.incidents.length ∧
    matchingCount (AuditService.createSecurityIncident openBruteForceState
        (AuditService.bruteForceCandidate "u1" 6 (some "203.0.113.9")) 1000)
      (AuditService.bruteForceCandidate "u1" 6 (some "203.0.113.9")) 1000 ≤ 1 := by
  constructor
  · exact ((claim_C4 openBruteForceState
      (AuditService.bruteForceCandidate "u1" 6 (some "203.0.113.9")) 1000
      ⟨by decide, by decide⟩).2.1
      { id := 0, type := "BRUTE_FORCE", severity := "HIGH",
        title := "Multiple failed login attempts detected",
        description := "first detection",
        status := IncidentStatus.OPEN, detectedAt := 0,
        affectedUsers := ["u1"], resolution := none,
        resolvedBy := none, resolvedAt := none } (by decide)).2
  · exact (claim_C4 openBruteForceState
      (AuditService.bruteForceCandidate "u1" 6 (some "203.0.113.9")) 1000
      ⟨by decide, by decide⟩).1 (by decide)

/-! ## Claim C7 — brute-force detection -/

/-- The state component of AuditService.log is detection after
persistence. -/
theorem log_fst (st : AuditState) (o : LogOptions) (now : Time) :
    (AuditService.log st o now).1 =
      AuditService.detectSuspiciousActivity
        (AuditService.persistEntry st o now).1 o now := rfl

/-- On a LOGIN_FAILED event with an actor, the detector raises the
brute-force candidate exactly when the count over the persisted log
reaches five: at five or more the BRUTE_FORCE incidents afterwards are
those of createOrMerge applied to the brute-force candidate, and below
five they are untouched (the other two rules only produce
SUSPICIOUS_ACTIVITY incidents). -/
theorem detect_bf (st1 : AuditState) (o : LogOptions) (u : UserId)
    (now : Time) (hids : incidentIdsOk st1)
    (hact : o.action = "LOGIN_FAILED") (huid : o.userId = some u) :
    (5 ≤ AuditService.recentFailedLogins st1 u now →
      bfIncidents (AuditService.detectSuspiciousActivity st1 o now) =
        bfIncidents (AuditService.createSecurityIncident st1
          (AuditService.bruteForceCandidate u
            (AuditService.recentFailedLogins st1 u now) o.ipAddress) now)) ∧
    (AuditService.recentFailedLogins st1 u now < 5 →
      bfIncidents (AuditService.detectSuspiciousActivity st1 o now) =
        bfIncidents st1) := by
  constructor
  · intro hn
    simp only [AuditService.detectSuspiciousActivity, huid, hact]
    rw [if_pos (by rfl : (("LOGIN_FAILED" : String) == "LOGIN_FAILED") = true)]
    rw [if_pos hn]
    rw [if_neg (by decide :
      ¬(("LOGIN_FAILED" : String) == "SENSITIVE_DATA_ACCESSED") = true)]
    set stBF := AuditService.createSecurityIncident st1
      (AuditService.bruteForceCandidate u
        (AuditService.recentFailedLogins st1 u now) o.ipAddress) now with hstBF
    by_cases hm : 5 ≤ AuditService.recentDistinctIPs stBF u now
    · rw [if_pos hm]
      unfold bfIncidents
      exact createSecurityIncident_other_type stBF _ now "BRUTE_FORCE"
        (createSecurityIncident_idsOk st1 _ now hids)
        (by intro hcontra; simp at hcontra)
    · rw [if_neg hm]
  · intro hn
    simp only [AuditService.detectSuspiciousActivity, huid, hact]
    rw [if_pos (by rfl : (("LOGIN_FAILED" : String) == "LOGIN_FAILED") = true)]
    rw [if_neg (not_le.mpr hn)]
    rw [if_neg (by decide :
      ¬(("LOGIN_FAILED" : String) == "SENSITIVE_DATA_ACCESSED") = true)]
    by_cases hm : 5 ≤ AuditService.recentDistinctIPs st1 u now
    · rw [if_pos hm]
      unfold bfIncidents
      exact createSecurityIncident_other_type st1 _ now "BRUTE_FORCE" hids
        (by intro hcontra; simp at hcontra)
    · rw [if_neg hm]

/-- The LOGIN_FAILED event of the brute-force scenario: actor u1 failing
to authenticate from one origin address. -/
def c7Event : LogOptions :=
  { userId := some "u1", action := "LOGIN_FAILED", resource := "Auth",
    resourceId := none, details := none, ipAddress := some "203.0.113.9",
    userAgent := none, status := "FAILURE", errorMessage := none,
    duration := none }

/-- The empty audit state. -/
def c7Init : AuditState :=
  { auditLog := [], incidents := [], nextEntryId := 0, nextIncidentId := 0 }

/-- The audit state after recording k LOGIN_FAILED events for u1, one
second apart, through the full record-then-detect pipeline. -/
def c7After (k : Nat) : AuditState :=
  (List.range k).foldl (fun s i =>
    (AuditService.log s c7Event (Int.ofNat i * 1000)).1) c7Init

/-- Claim C7: recording a LOGIN_FAILED event with an actor increments
that actor's failed-login count over the trailing fifteen minutes
(including the triggering event); the detector raises the HIGH
BRUTE_FORCE candidate naming the actor and origin exactly when that
count reaches five, and leaves BRUTE_FORCE incidents untouched below
five; in the concrete scenario, five failures within the window yield
exactly one OPEN BRUTE_FORCE incident and a sixth merges into it
(appending its description) instead of creating a second one. -/
theorem claim_C7 (st : AuditState) (o : LogOptions) (u : UserId)
    (now : Time) (hids : incidentIdsOk st)
    (hact : o.action = "LOGIN_FAILED") (huid : o.userId = some u) :
    (AuditService.recentFailedLogins (AuditService.persistEntry st o now).1
        u now = AuditService.recentFailedLogins st u now + 1) ∧
    (5 ≤ AuditService.recentFailedLogins
        (AuditService.persistEntry st o now).1 u now →
      bfIncidents (AuditService.log st o now).1 =
        bfIncidents (AuditService.createSecurityIncident
          (AuditService.persistEntry st o now).1
          (AuditService.bruteForceCandidate u
            (AuditService.recentFailedLogins
              (AuditService.persistEntry st o now).1 u now) o.ipAddress)
          now)) ∧
    (AuditService.recentFailedLogins
        (AuditService.persistEntry st o now).1 u now < 5 →
      bfIncidents (AuditService.log st o now).1 = bfIncidents st) ∧
    (c7After 4).incidents = [] ∧
    (c7After 5).incidents.map (fun i => (i.type, i.status)) =
      [("BRUTE_FORCE", IncidentStatus.OPEN)] ∧
    (c7After 6).incidents.map (fun i => (i.type, i.status)) =
      [("BRUTE_FORCE", IncidentStatus.OPEN)] ∧
    (c7After 6).incidents.map (fun i => i.description) =
      [AuditService.bruteForceDescription "u1" 5 (some "203.0.113.9") ++ "\n"
        ++ AuditService.bruteForceDescription "u1" 6 (some "203.0.113.9")] := by
  have hids1 : incidentIdsOk (AuditService.persistEntry st o now).1 := hids
  refine ⟨?_, ?_, ?_, by decide, by decide, by decide, by decide⟩
  · unfold AuditService.recentFailedLogins
    have hlog : (AuditService.persistEntry st o now).1.auditLog =
        st.auditLog ++ [(AuditService.persistEntry st o now).2] := rfl
    rw [hlog, List.filter_append, List.length_append]
    have h1 : ((AuditService.persistEntry st o now).2.userId == some u) =
        true := by
      simp [AuditService.persistEntry, huid]
    have h2 : ((AuditService.persistEntry st o now).2.action ==
        "LOGIN_FAILED") = true := by
      simp [AuditService.persistEntry, hact]
    have h3 : now ≤ (AuditService.persistEntry st o now).2.createdAt +
        fifteenMinutesMs :=
      le_add_of_nonneg_right (by decide)
    simp [List.filter_cons, h1, h2, h3]
  · intro hn
    rw [log_fst]
    exact (detect_bf (AuditService.persistEntry st o now).1 o u now hids1
      hact huid).1 hn
  · intro hn
    rw [log_fst]
    have := (detect_bf (AuditService.persistEntry st o now).1 o u now hids1
      hact huid).2 hn
    rw [this]
    rfl

/-- Witness for claim C7: the fifth LOGIN_FAILED event for u1 within the
window reaches the threshold, so the detector hands the brute-force
candidate to createOrMerge. -/
theorem claim_C7_witness :
    bfIncidents (AuditService.log (c7After 4) c7Event 4000).1 =
      bfIncidents (AuditService.createSecurityIncident
        (AuditService.persistEntry (c7After 4) c7Event 4000).1
        (AuditService.bruteForceCandidate "u1"
          (AuditService.recentFailedLogins
            (AuditService.persistEntry (c7After 4) c7Event 4000).1 "u1" 4000)
          c7Event.ipAddress) 4000) := by
  exact (claim_C7 (c7After 4) c7Event "u1" 4000 ⟨by decide, by decide⟩
    rfl rfl).2.1 (by decide)

end UnixTeam
